import Mathlib

/-!
# Verification of the `mantra` TUI ledger application

A shallow embedding of the core of the `mantra` repository (a terminal
bookkeeping application) together with proofs about it.  Rust types are
translated to Lean inductives/structures; `String` buffers are modelled as
their character sequences (`List Char`) with an explicit UTF-8 encoder used
to reason about byte offsets; machine integers are `Int`/`Nat`; code that can
panic or error is modelled with an explicit `Step`/`Option` result.

Source files embedded here (paths relative to the repository root):
* `src/app/popups.rs` — `CursoredString` and its editing operations;
* `src/storage/filter.rs` — `TransactionFilter` and the parameterized
  query compiler `add_to_builder`;
* `src/app.rs` — `App::handle_event`, `AppData::run_table`,
  `AppData::run_user_login`, `AppData::update_table`;
* `src/app/popups/create_user.rs`, `src/app/popups/filter_results.rs`,
  `src/app/popups/add_transaction.rs` — the popup handlers.

Plumbing the repository treats as an external collaborator (the sqlite
storage row semantics, the popup-enum forwarding glue and the current
`crate::CursoredString` used only by the login mode) is not present under
`src/`; those definitions are modelled from the specification and carry a
`Modelled from the spec:` doc comment.
-/

namespace Mantra

/-! ## Key events (crossterm `KeyCode` / `Event`, restricted to the variants
the embedded handlers inspect; every other variant is `other`). -/

structure KeyModifiers where
  shift : Bool
  ctrl : Bool
  alt : Bool
  deriving DecidableEq, Repr

inductive KeyCode where
  | up | down | left | right | enter | esc | backspace | delete
  | insert | tab | backTab
  | char (c : Char)
  | other
  deriving DecidableEq, Repr

inductive KeyEventKind where
  | press | release | repeated
  deriving DecidableEq, Repr

structure KeyEvent where
  code : KeyCode
  modifiers : KeyModifiers
  kind : KeyEventKind
  deriving DecidableEq, Repr

inductive Event where
  | key (k : KeyEvent)
  | other
  deriving DecidableEq, Repr

def noMods : KeyModifiers := ⟨false, false, false⟩

/-! ## UTF-8 byte model

Rust stores `String` as UTF-8 bytes; `text.len()` is the byte length and
`text.chars()`/`char_indices()` walk characters.  We model the buffer as its
character list and make the byte layer explicit through `charLenUtf8` (Rust
`char::len_utf8`) and the encoder `utf8Encode`. -/

/-- Byte length of one character in UTF-8, as in Rust's `char::len_utf8`. -/
def charLenUtf8 (c : Char) : Nat :=
  if c.toNat < 0x80 then 1
  else if c.toNat < 0x800 then 2
  else if c.toNat < 0x10000 then 3
  else 4

/-- The UTF-8 bytes of one character (RFC 3629 bit layout). -/
def utf8Encode (c : Char) : List Nat :=
  let v := c.toNat
  if v < 0x80 then [v]
  else if v < 0x800 then [0xC0 + v / 64, 0x80 + v % 64]
  else if v < 0x10000 then [0xE0 + v / 4096, 0x80 + v / 64 % 64, 0x80 + v % 64]
  else [0xF0 + v / 262144, 0x80 + v / 4096 % 64, 0x80 + v / 64 % 64, 0x80 + v % 64]

/-- Byte length of a buffer: Rust's `String::len`. -/
def byteLenList : List Char → Nat
  | [] => 0
  | c :: rest => charLenUtf8 c + byteLenList rest

/-- UTF-8 encoding of a whole buffer. -/
def encodeList : List Char → List Nat
  | [] => []
  | c :: rest => utf8Encode c ++ encodeList rest

/-- Byte offsets of each character: the first components of Rust's
`str::char_indices`. -/
def charOffsets : List Char → List Nat
  | [] => []
  | c :: rest => 0 :: (charOffsets rest).map (· + charLenUtf8 c)

/-- Insert a character before position `n` (Rust `String::insert` once the
byte offset has been resolved to the `n`-th character boundary). -/
def insertAt : Nat → Char → List Char → List Char
  | 0, c, l => c :: l
  | _ + 1, c, [] => [c]
  | n + 1, c, x :: xs => x :: insertAt n c xs

/-- Remove the character at position `n` (identity when out of range). -/
def eraseAt : Nat → List Char → List Char
  | _, [] => []
  | 0, _ :: xs => xs
  | n + 1, x :: xs => x :: eraseAt n xs

/-- The `retain` closure of `CursoredString::remove_behind`: a counter is
incremented before each element and the element is kept iff the counter
differs from `skip` — i.e. the character at 1-based position `skip` is
dropped. -/
def retainNe (skip : Nat) : Nat → List Char → List Char
  | _, [] => []
  | i, c :: rest => if i + 1 = skip then retainNe skip (i + 1) rest
                    else c :: retainNe skip (i + 1) rest

/-- The `retain` closure of `CursoredString::remove_ahead`: the element whose
0-based position equals `skip` is dropped. -/
def retainNe0 (skip : Nat) : Nat → List Char → List Char
  | _, [] => []
  | i, c :: rest => if i = skip then retainNe0 skip (i + 1) rest
                    else c :: retainNe0 skip (i + 1) rest


structure CursoredString where
  text : List Char
  index : Nat
  inserting : Bool
  deriving DecidableEq, Repr

instance : Inhabited CursoredString := ⟨⟨[], 0, false⟩⟩

namespace CursoredString

/-- `fn next(&mut self) { self.index = self.index.saturating_add(1).clamp(0, self.text.len()) }`
— note the clamp bound is the BYTE length `text.len()`. -/
def next (s : CursoredString) : CursoredString :=
  { s with index := min (s.index + 1) (byteLenList s.text) }

/-- `fn prev(&mut self) { self.index = self.index.saturating_sub(1).clamp(0, self.text.len()) }` -/
def prev (s : CursoredString) : CursoredString :=
  { s with index := min (s.index - 1) (byteLenList s.text) }

/-- `remove_behind`: when `index > 0`, retain all characters whose 1-based
position differs from `index`, then decrement the cursor iff the byte length
shrank. -/
def remove_behind (s : CursoredString) : CursoredString :=
  if s.index > 0 then
    let old_len := byteLenList s.text
    let t := retainNe s.index 0 s.text
    if byteLenList t < old_len then ⟨t, s.index - 1, s.inserting⟩
    else ⟨t, s.index, s.inserting⟩
  else s

/-- `remove_ahead`: when `index < chars().count()`, drop the character at
0-based position `index`; the cursor does not move. -/
def remove_ahead (s : CursoredString) : CursoredString :=
  if s.index < s.text.length then
    { s with text := retainNe0 s.index 0 s.text }
  else s

/-- The state `insert` operates on after the overwrite-mode deletion:
`if self.inserting { self.remove_ahead(); }`. -/
def insertBase (s : CursoredString) : CursoredString :=
  if s.inserting then s.remove_ahead else s

/-- The byte offset `insert` computes:
`self.text.char_indices().map(|(i, _)| i).nth(self.index).unwrap_or(self.text.len())`. -/
def byteOffsetOf (s : CursoredString) : Nat :=
  ((charOffsets s.text).get? s.index).getD (byteLenList s.text)

/-- `insert`: optional overwrite deletion, then `self.text.insert(byte_index, value)`
and `self.index += 1`.  Inserting at `byte_index` is insertion before the
character at position `min index (chars count)` — `byteOffsetOf` lands on
exactly that character boundary (theorem `c6_insert_utf8_safe`). -/
def insert (s : CursoredString) (value : Char) : CursoredString :=
  let u := insertBase s
  { u with text := insertAt (min u.index u.text.length) value u.text,
           index := u.index + 1 }

/-- Fold a character sequence through `insert`. -/
def insertList (s : CursoredString) : List Char → CursoredString
  | [] => s
  | c :: cs => insertList (s.insert c) cs

end CursoredString

/-! ## Transaction types (src/storage.rs) and the variant map (src/macros.rs)

```rust
pub enum TransactionType { Other = 0, Character, MissionReward }
```
`TransactionTypeMap<T>` is generated by the `mapped_enum!` macro in
`src/macros.rs`: a struct with one field per variant.  Only the `bool`
instantiation is used by the filter code, so we specialize to it. -/

inductive TransactionType where
  | Other
  | Character
  | MissionReward
  deriving DecidableEq, Repr

instance : Inhabited TransactionType := ⟨.Other⟩

namespace TransactionType

/-- The `#[repr(i32)]` discriminant. -/
def toRepr : TransactionType → Int
  | .Other => 0
  | .Character => 1
  | .MissionReward => 2

/-- `Self::from_repr`, total with the `expect`-justified fallback. -/
def fromRepr (v : Int) : TransactionType :=
  if v = 0 then .Other else if v = 1 then .Character
  else if v = 2 then .MissionReward else .Other

/-- `fn next(self) -> Self { Self::from_repr((self as i32 + 1).rem_euclid(COUNT as i32)).expect(..) }` -/
def next (t : TransactionType) : TransactionType := fromRepr ((t.toRepr + 1).emod 3)

/-- `fn prev(self)`, cycling the other way. -/
def prev (t : TransactionType) : TransactionType := fromRepr ((t.toRepr - 1).emod 3)

end TransactionType

/-- `TransactionTypeMap<bool>` from the `mapped_enum!` macro: one flag per
`TransactionType` variant. -/
structure TransactionTypeMap where
  Other : Bool
  Character : Bool
  MissionReward : Bool
  deriving DecidableEq, Repr

instance : Inhabited TransactionTypeMap := ⟨⟨false, false, false⟩⟩

namespace TransactionTypeMap

/-- Modelled from the spec: `kv_pairs` iterates `(variant, value)` pairs in
declaration order (its generated definition is not under `src/`; usage in
`src/app/popups/filter_results.rs` and `src/storage/filter.rs` fixes the
shape). -/
def kvPairs (m : TransactionTypeMap) : List (TransactionType × Bool) :=
  [(.Other, m.Other), (.Character, m.Character), (.MissionReward, m.MissionReward)]

/-- Index the map at a variant (the macro's `Index` impl). -/
def get (m : TransactionTypeMap) : TransactionType → Bool
  | .Other => m.Other
  | .Character => m.Character
  | .MissionReward => m.MissionReward

end TransactionTypeMap

/-! ## Filters and the query compiler (src/storage/filter.rs) -/

/-- `std::ops::Bound<time::PrimitiveDateTime>`, with datetimes as integers. -/
inductive DateBound where
  | included (d : Int)
  | excluded (d : Int)
  | unbounded
  deriving DecidableEq, Repr

/-- ```rust
pub struct DateRange { start: Bound<PrimitiveDateTime>, end: Bound<PrimitiveDateTime> }
```
(`end` is a reserved word, hence the field name `stop`). -/
structure DateRange where
  start : DateBound
  stop : DateBound
  deriving DecidableEq, Repr

/-- ```rust
pub enum TransactionFilter {
    UserId(Vec<i32>), Type(TransactionTypeMap<bool>),
    DateRange(DateRange), Id(Vec<i32>), Not(Box<TransactionFilter>),
}
``` -/
inductive TransactionFilter where
  | userId (ids : List Int)
  | type (m : TransactionTypeMap)
  | dateRange (dr : DateRange)
  | id (ids : List Int)
  | not (f : TransactionFilter)
  deriving DecidableEq, Repr

/-- A value handed to `push_bind`: it goes into the argument list, never into
the SQL text. -/
inductive SqlValue where
  | int (i : Int)
  | ttype (t : TransactionType)
  | date (d : Int)
  deriving DecidableEq, Repr

/-- `sqlx::QueryBuilder`: accumulated SQL text plus bound arguments.
`push_bind` writes only the placeholder into the text. -/
structure QueryBuilder where
  sql : String
  args : List SqlValue
  deriving DecidableEq, Repr

namespace QueryBuilder

def push (b : QueryBuilder) (s : String) : QueryBuilder :=
  { b with sql := b.sql ++ s }

/-- The SQLite bind placeholder written by `push_bind`. -/
def placeholder : String := "?"

def push_bind (b : QueryBuilder) (v : SqlValue) : QueryBuilder :=
  { sql := b.sql ++ placeholder, args := b.args ++ [v] }

end QueryBuilder

/-- `sqlx`'s `Separated` wrapper produced by `builder.separated(" AND ")`:
`push` prefixes the separator from the second push on; the
`*_unseparated` variants do not touch the flag. -/
structure SepState where
  b : QueryBuilder
  pushSeparator : Bool

namespace SepState

def push (s : SepState) (sql : String) : SepState :=
  if s.pushSeparator then ⟨s.b.push (" AND " ++ sql), s.pushSeparator⟩
  else ⟨s.b.push sql, true⟩

def push_bind_unseparated (s : SepState) (v : SqlValue) : SepState :=
  ⟨s.b.push_bind v, s.pushSeparator⟩

end SepState

/-- The `for id in &ids[1..]` loops of `add_to_builder`: push the fragment and
bind each remaining value. -/
def pushOrBinds (frag : String) : QueryBuilder → List SqlValue → QueryBuilder
  | b, [] => b
  | b, v :: rest => pushOrBinds frag ((b.push frag).push_bind v) rest

/-- `TransactionFilter::add_to_builder` (src/storage/filter.rs, lines 29-83).
`none` models the panic of `ids[0]` on an empty `Vec` (`UserId`/`Id`). -/
def addToBuilder : TransactionFilter → QueryBuilder → Option QueryBuilder
  | .userId ids, b =>
      match ids with
      | [] => none
      | i0 :: rest =>
          some (pushOrBinds " OR user_id = "
            ((b.push "user_id = ").push_bind (.int i0)) (rest.map .int))
  | .type m, b =>
      match (m.kvPairs.filter (fun p => p.2)).map (fun p => p.1) with
      | [] => some b
      | t0 :: rest =>
          some (pushOrBinds " OR type = "
            ((b.push "type = ").push_bind (.ttype t0)) (rest.map .ttype))
  | .dateRange dr, b =>
      let s0 : SepState := ⟨b, false⟩
      let s1 := match dr.start with
        | .included d => (s0.push "datetime >= ").push_bind_unseparated (.date d)
        | .excluded d => (s0.push "datetime > ").push_bind_unseparated (.date d)
        | .unbounded => s0
      let s2 := match dr.stop with
        | .included d => (s1.push "datetime <= ").push_bind_unseparated (.date d)
        | .excluded d => (s1.push "datetime < ").push_bind_unseparated (.date d)
        | .unbounded => s1.push "1=1"
      some s2.b
  | .id ids, b =>
      match ids with
      | [] => none
      | i0 :: rest =>
          some (pushOrBinds " OR id = "
            ((b.push "id = ").push_bind (.int i0)) (rest.map .int))
  | .not f, b => (addToBuilder f (b.push "NOT (")).map (fun b' => b'.push ")")

/-! ### Shape abstraction used by the noninterference claim -/

/-- The kind of a date bound, ignoring its value. -/
inductive BoundKind where
  | inc | exc | unb
  deriving DecidableEq, Repr

def DateBound.kind : DateBound → BoundKind
  | .included _ => .inc
  | .excluded _ => .exc
  | .unbounded => .unb

/-- The shape of a filter tree: variant at every node, number of set members,
kinds of date bounds — everything except the user-controlled values. -/
inductive FShape where
  | userId (n : Nat)
  | type (n : Nat)
  | dateRange (s e : BoundKind)
  | id (n : Nat)
  | not (s : FShape)
  deriving DecidableEq, Repr

def TransactionFilter.shape : TransactionFilter → FShape
  | .userId ids => .userId ids.length
  | .type m => .type (m.kvPairs.filter (fun p => p.2)).length
  | .dateRange dr => .dateRange dr.start.kind dr.stop.kind
  | .id ids => .id ids.length
  | .not f => .not f.shape

/-- `n` copies of a fragment concatenated. -/
def repeatFrag (frag : String) : Nat → String
  | 0 => ""
  | n + 1 => frag ++ repeatFrag frag n

/-- SQL text of one compiled date bound pair (the start fragment, the `AND`
separator handling, and the end fragment including the `1=1` emitted for an
unbounded end). -/
def dateRangeSql (s e : BoundKind) : String :=
  let endFrag := match e with
    | .inc => "datetime <= " ++ QueryBuilder.placeholder
    | .exc => "datetime < " ++ QueryBuilder.placeholder
    | .unb => "1=1"
  match s with
  | .inc => "datetime >= " ++ QueryBuilder.placeholder ++ " AND " ++ endFrag
  | .exc => "datetime > " ++ QueryBuilder.placeholder ++ " AND " ++ endFrag
  | .unb => endFrag

/-- The SQL text `add_to_builder` appends, as a function of the shape alone
(`none` when compilation panics, i.e. on an empty id set). -/
def shapeSqlOpt : FShape → Option String
  | .userId 0 => none
  | .userId (n + 1) =>
      some ("user_id = " ++ QueryBuilder.placeholder
        ++ repeatFrag (" OR user_id = " ++ QueryBuilder.placeholder) n)
  | .type 0 => some ""
  | .type (n + 1) =>
      some ("type = " ++ QueryBuilder.placeholder
        ++ repeatFrag (" OR type = " ++ QueryBuilder.placeholder) n)
  | .dateRange s e => some (dateRangeSql s e)
  | .id 0 => none
  | .id (n + 1) =>
      some ("id = " ++ QueryBuilder.placeholder
        ++ repeatFrag (" OR id = " ++ QueryBuilder.placeholder) n)
  | .not s => (shapeSqlOpt s).map (fun t => "NOT (" ++ t ++ ")")

/-- The bound values a filter contributes, in emission order. -/
def filterBinds : TransactionFilter → List SqlValue
  | .userId ids => ids.map .int
  | .type m => ((m.kvPairs.filter (fun p => p.2)).map (fun p => p.1)).map .ttype
  | .dateRange dr =>
      (match dr.start with
        | .included d => [SqlValue.date d]
        | .excluded d => [SqlValue.date d]
        | .unbounded => [])
      ++ (match dr.stop with
        | .included d => [SqlValue.date d]
        | .excluded d => [SqlValue.date d]
        | .unbounded => [])
  | .id ids => ids.map .int
  | .not f => filterBinds f

/-! ## Users, transactions and the storage collaborator (src/storage.rs)

The sqlite database itself is an external collaborator (spec §1, §6): its row
semantics are modelled from the §6 contract as a pure in-memory state. -/

structure User where
  id : Int
  name : String
  deriving DecidableEq, Repr

structure Transaction where
  trans_id : Int
  datetime : Int
  user_id : Int
  value : Int
  transaction_type : TransactionType
  msg : String
  deriving DecidableEq, Repr

inductive StorageRunError where
  | DBError
  | RecordMissing
  deriving DecidableEq, Repr

/-- `AppError` (src/app.rs): `Io`, `StorageRun`, `ParseInt`. -/
inductive AppError where
  | io
  | storageRun (e : StorageRunError)
  | parseInt
  deriving DecidableEq, Repr

/-- Result of one embedded step: success, a propagated error (`?`), or a Rust
panic (`unwrap`/index out of bounds/unsigned underflow). -/
inductive Step (α : Type) where
  | ok (a : α)
  | err (e : AppError)
  | panic
  deriving DecidableEq, Repr

def Step.map {α β : Type} (f : α → β) : Step α → Step β
  | .ok a => .ok (f a)
  | .err e => .err e
  | .panic => .panic

/-- Modelled from the spec: the persistent store at its §6 boundary — a user
table and a transaction table, with a fresh-id counter and a clock standing
in for sqlite's rowid allocation and `unixepoch()`. -/
structure Storage where
  users : List User
  rows : List Transaction
  nextUserId : Int
  nextId : Int
  now : Int
  deriving DecidableEq, Repr

/-- Modelled from the spec: row semantics of one compiled filter, read off
the SQL emitted by `add_to_builder` (§6: `get_transactions` returns the
transactions satisfying the filters). -/
def matchesFilter : TransactionFilter → Transaction → Bool
  | .userId ids, t => ids.contains t.user_id
  | .type m, t => m.get t.transaction_type
  | .dateRange dr, t =>
      (match dr.start with
        | .included a => decide (a ≤ t.datetime)
        | .excluded a => decide (a < t.datetime)
        | .unbounded => true)
      && (match dr.stop with
        | .included a => decide (t.datetime ≤ a)
        | .excluded a => decide (t.datetime < a)
        | .unbounded => true)
  | .id ids, t => ids.contains t.trans_id
  | .not f, t => !(matchesFilter f t)

namespace Storage

/-- Modelled from the spec: `create_user` is idempotent — `INSERT OR IGNORE`
on the unique `name` column (§6); cannot fail. -/
def create_user (st : Storage) (username : String) : Storage :=
  if st.users.any (fun u => u.name = username) then st
  else { st with users := st.users ++ [⟨st.nextUserId, username⟩],
                 nextUserId := st.nextUserId + 1 }

/-- Modelled from the spec: `get_user` returns the user with the given name
or `RecordMissing` (§6). -/
def get_user (st : Storage) (username : String) : Except StorageRunError User :=
  match st.users.find? (fun u => u.name = username) with
  | some u => .ok u
  | none => .error .RecordMissing

/-- Modelled from the spec: `add_transaction` timestamps at call time (§6). -/
def add_transaction (st : Storage) (user : Int) (amount : Int)
    (transaction_type : TransactionType) (msg : String) : Storage :=
  { st with rows := st.rows ++ [⟨st.nextId, st.now, user, amount, transaction_type, msg⟩],
            nextId := st.nextId + 1 }

/-- Modelled from the spec: `get_transactions` returns the rows satisfying
the AND of all supplied filters, in a deterministic (table) order (§6). -/
def get_transactions (st : Storage) (filters : List TransactionFilter) : List Transaction :=
  st.rows.filter (fun t => filters.all (fun f => matchesFilter f t))

/-- Modelled from the spec: `remove_transactions` deletes all rows matching
the compiled predicate (§6). -/
def remove_transactions (st : Storage) (filter : TransactionFilter) : Storage :=
  { st with rows := st.rows.filter (fun t => !(matchesFilter filter t)) }

end Storage

/-! ## ratatui selection state

Modelled from ratatui's `TableState`/`ListState`: `select_next` selects
`selected.map_or(0, |i| i.saturating_add(1))`, `select_previous` selects
`selected.map_or(usize::MAX, |i| i.saturating_sub(1))` (64-bit `usize`). -/

def USIZE_MAX : Nat := 2 ^ 64 - 1

structure TableState where
  selected : Option Nat
  deriving DecidableEq, Repr

instance : Inhabited TableState := ⟨⟨none⟩⟩

def TableState.selectNext (s : TableState) : TableState :=
  ⟨some (match s.selected with | none => 0 | some i => i + 1)⟩

def TableState.selectPrevious (s : TableState) : TableState :=
  ⟨some (match s.selected with | none => USIZE_MAX | some i => i - 1)⟩

structure ListState where
  selected : Option Nat
  deriving DecidableEq, Repr

instance : Inhabited ListState := ⟨⟨none⟩⟩

def ListState.selectNext (s : ListState) : ListState :=
  ⟨some (match s.selected with | none => 0 | some i => i + 1)⟩

def ListState.selectPrevious (s : ListState) : ListState :=
  ⟨some (match s.selected with | none => USIZE_MAX | some i => i - 1)⟩

/-! ## Popup data (src/app/popups/...) -/

/-- `CreateUser` (src/app/popups/create_user.rs). -/
structure CreateUser where
  new_user : String
  should_create : Bool
  deriving DecidableEq, Repr

/-- `CreateUser::new`: defaults to creating. -/
def CreateUser.new (new_user : String) : CreateUser := ⟨new_user, true⟩

/-- `FilterResults` (src/app/popups/filter_results.rs). -/
structure FilterResults where
  filters : List TransactionFilter
  list_state : ListState
  deriving DecidableEq, Repr

/-- `FilterResults::new`. -/
def FilterResults.new (filters : List TransactionFilter) : FilterResults :=
  ⟨filters, default⟩

/-- Field selector of `AddFilter`: `{ Type = 0, Value, Submit }`. -/
inductive AddFilterField where
  | type
  | value
  | submit
  deriving DecidableEq, Repr

namespace AddFilterField

def toIdx : AddFilterField → Int
  | .type => 0
  | .value => 1
  | .submit => 2

def fromIdx (v : Int) : AddFilterField :=
  if v = 0 then .type else if v = 1 then .value
  else if v = 2 then .submit else .type

/-- `FromPrimitive::from_i8((*self as i8 + 1).rem_euclid(COUNT as i8))`. -/
def next (f : AddFilterField) : AddFilterField := fromIdx ((f.toIdx + 1).emod 3)

def prev (f : AddFilterField) : AddFilterField := fromIdx ((f.toIdx - 1).emod 3)

end AddFilterField

/-- Kind selector of `AddFilter`: `{ TransactionType = 0, DateRange }`. -/
inductive AddFilterType where
  | transactionType
  | dateRange
  deriving DecidableEq, Repr

namespace AddFilterType

def toIdx : AddFilterType → Int
  | .transactionType => 0
  | .dateRange => 1

def fromIdx (v : Int) : AddFilterType :=
  if v = 0 then .transactionType else if v = 1 then .dateRange else .transactionType

def next (f : AddFilterType) : AddFilterType := fromIdx ((f.toIdx + 1).emod 2)

def prev (f : AddFilterType) : AddFilterType := fromIdx ((f.toIdx - 1).emod 2)

/-- `fn value_count(&self) -> usize`. -/
def value_count : AddFilterType → Nat
  | .transactionType => 3
  | .dateRange => 2

/-- `impl From<AddFilterType> for TransactionFilter`. -/
def toFilter : AddFilterType → TransactionFilter
  | .transactionType => .type default
  | .dateRange => .dateRange ⟨.unbounded, .unbounded⟩

end AddFilterType

/-- `AddFilter` (src/app/popups/filter_results.rs). -/
structure AddFilter where
  pop_under : FilterResults
  filter : TransactionFilter
  selected_field : AddFilterField
  selected_type : AddFilterType
  index : Nat
  deriving DecidableEq, Repr

/-- `AddFilter::new_with_entry`. -/
def AddFilter.newWithEntry (pop_under : FilterResults) (filter : TransactionFilter) : AddFilter :=
  ⟨pop_under, filter, .type, .transactionType, 0⟩

/-- `AddFilter::new`: seeded with a blank `Type` filter. -/
def AddFilter.new (pop_under : FilterResults) : AddFilter :=
  AddFilter.newWithEntry pop_under (.type default)

/-- Field selector of `AddTransaction`: `{ TransactionType = 0, Amount, Message, Submit }`. -/
inductive AddTransactionField where
  | transactionType
  | amount
  | message
  | submit
  deriving DecidableEq, Repr

namespace AddTransactionField

def toIdx : AddTransactionField → Int
  | .transactionType => 0
  | .amount => 1
  | .message => 2
  | .submit => 3

def fromIdx (v : Int) : AddTransactionField :=
  if v = 0 then .transactionType else if v = 1 then .amount
  else if v = 2 then .message else if v = 3 then .submit else .transactionType

def next (f : AddTransactionField) : AddTransactionField := fromIdx ((f.toIdx + 1).emod 4)

def prev (f : AddTransactionField) : AddTransactionField := fromIdx ((f.toIdx - 1).emod 4)

end AddTransactionField

/-- `AddTransaction` (src/app/popups/add_transaction.rs). -/
structure AddTransaction where
  trans_type : TransactionType
  amount : Int
  msg : CursoredString
  selected_field : AddTransactionField
  deriving DecidableEq, Repr

instance : Inhabited AddTransaction := ⟨⟨.Other, 0, default, .transactionType⟩⟩

/-- The closed popup variant type (spec §3/§4.3). -/
inductive Popup where
  | addTransaction (p : AddTransaction)
  | createUser (p : CreateUser)
  | filterResults (p : FilterResults)
  | addFilter (p : AddFilter)
  deriving DecidableEq, Repr

/-! ## The application state (src/app.rs) -/

/-- `AppMode`: Intro, UserLogin, LogTable, Quitting. -/
inductive AppMode where
  | intro (animation_progress : Nat)
  | userLogin (username : CursoredString)
  | logTable
  | quitting
  deriving DecidableEq, Repr

/-- `AppData` (src/app.rs).  The `config` field is omitted: it is only read
by the render layer, which is out of scope (spec §1). -/
structure AppData where
  storage : Storage
  current_user : Option User
  transactions : List Transaction
  transaction_filters : List TransactionFilter
  table_state : TableState
  status_text : String
  popup : Option Popup
  deriving DecidableEq, Repr

structure App where
  data : AppData
  mode : AppMode
  deriving DecidableEq, Repr

/-! ## Spec-modelled pieces of the current `crate::CursoredString`

The login mode and `AddTransaction` call `right`/`left`/`is_empty`/
`to_lowercase` on `crate::CursoredString`, whose source file is not under
`src/` (only the older snapshot in `src/app/popups.rs` is).  The editing
operations reuse the in-repo ones; the missing accessors are modelled from
spec §4.1. -/

namespace CursoredString

/-- Modelled from the spec: `move_right` — cursor saturating +1, clamped to
`[0, length]` (§4.1). -/
def right (s : CursoredString) : CursoredString :=
  { s with index := min (s.index + 1) s.text.length }

/-- Modelled from the spec: `move_left` — cursor saturating −1, clamped to
`[0, length]` (§4.1). -/
def left (s : CursoredString) : CursoredString :=
  { s with index := min (s.index - 1) s.text.length }

/-- Modelled from the spec: emptiness of the buffer. -/
def isEmpty (s : CursoredString) : Bool := s.text.isEmpty

/-- Modelled from the spec: lowercasing of the typed username (§4.2 Login). -/
def toLowercase (s : CursoredString) : String := String.mk (s.text.map Char.toLower)

/-- The buffer as a `String` (`&msg.buf`). -/
def asString (s : CursoredString) : String := String.mk s.text

end CursoredString

/-! ## Event handlers -/

/-- `fn get_modified_value(modifiers: KeyModifiers) -> i32`
(src/app/popups.rs, lines 67-80): ×5 for Shift, ×50 for Ctrl, ×200 for Alt,
composed multiplicatively. -/
def value_from_modifiers (modifiers : KeyModifiers) : Int :=
  let value : Int := 1
  let value := if modifiers.shift then value * 5 else value
  let value := if modifiers.ctrl then value * 50 else value
  let value := if modifiers.alt then value * 200 else value
  value

/-- `AppData::update_table` (src/app.rs):
`filters.push(UserId(vec![current_user.unwrap().id]))`, extend with the
active filters, then `get_transactions`.  The `unwrap` panics without a
current user. -/
def AppData.update_table (d : AppData) : Step AppData :=
  match d.current_user with
  | none => .panic
  | some u =>
      let filters := TransactionFilter.userId [u.id] :: d.transaction_filters
      .ok { d with transactions := d.storage.get_transactions filters }

/-- `AppData::run_table` (src/app.rs, lines 355-391).  In the `'d'` branch
`self.transactions.len() - 1` underflows and the subsequent indexing panics
when the cache is empty; both are captured by the `none` case of `get?`. -/
def AppData.run_table (d : AppData) (key : KeyEvent) : Step (AppData × Option AppMode) :=
  match key.code with
  | .down => .ok ({ d with table_state := d.table_state.selectNext }, none)
  | .up => .ok ({ d with table_state := d.table_state.selectPrevious }, none)
  | .esc => .ok (d, some .quitting)
  | .char 'q' => .ok (d, some .quitting)
  | .char 'o' =>
      .ok ({ d with current_user := none, transactions := [] }, some (.userLogin default))
  | .char 'a' => .ok ({ d with popup := some (.addTransaction default) }, none)
  | .char 'd' =>
      match d.table_state.selected with
      | some index =>
          let i := min index (d.transactions.length - 1)
          match d.transactions.get? i with
          | none => .panic
          | some transaction =>
              let storage' := d.storage.remove_transactions (.id [transaction.trans_id])
              let d' := { d with storage := storage',
                                 status_text := "Deleted \"" ++ toString transaction.value
                                   ++ " | " ++ transaction.msg ++ "\"" }
              match d'.update_table with
              | .ok d'' => .ok (d'', none)
              | .err e => .err e
              | .panic => .panic
      | none => .ok (d, none)
  | .char 'f' =>
      .ok ({ d with popup := some (.filterResults (FilterResults.new d.transaction_filters)),
                    transaction_filters := [] }, none)
  | _ => .ok (d, none)

/-- `AppData::run_user_login` (src/app.rs, lines 316-352).  Note the source
maps the Left key to `username.right()` and Right to `username.left()`. -/
def AppData.run_user_login (d : AppData) (username : CursoredString) (key : KeyEvent) :
    Step (AppData × CursoredString × Option AppMode) :=
  match key.code with
  | .left => .ok (d, username.right, none)
  | .right => .ok (d, username.left, none)
  | .enter =>
      if !username.isEmpty then
        let uname := username.toLowercase
        match d.storage.get_user uname with
        | .ok user =>
            let d := { d with status_text := "Logged in as '" ++ user.name ++ "'",
                              current_user := some user }
            match d.update_table with
            | .ok d' => .ok (d', username, some .logTable)
            | .err e => .err e
            | .panic => .panic
        | .error .RecordMissing =>
            .ok ({ d with popup := some (.createUser (CreateUser.new uname)) }, username, none)
        | .error e => .err (.storageRun e)
      else .ok (d, username, none)
  | .backspace => .ok (d, username.remove_behind, none)
  | .delete => .ok (d, username.remove_ahead, none)
  | .insert => .ok (d, { username with inserting := !username.inserting }, none)
  | .esc => .ok (d, username, some .quitting)
  | .char c => if !c.isWhitespace then .ok (d, username.insert c, none)
               else .ok (d, username, none)
  | _ => .ok (d, username, none)

/-- `CreateUser::process_event` (src/app/popups/create_user.rs, lines 27-58).
Enter on "Yes" creates the user, logs in, sets `app.mode = LogTable` and
refreshes the table — while the popup is still the active event target. -/
def CreateUser.process_event (cu : CreateUser) (app : App) (event : Event) :
    Step (Option Popup × App) :=
  match event with
  | .key key =>
      if key.kind = .press then
        match key.code with
        | .left | .backTab =>
            .ok (some (.createUser { cu with should_create := !cu.should_create }), app)
        | .right | .tab =>
            .ok (some (.createUser { cu with should_create := !cu.should_create }), app)
        | .enter =>
            if cu.should_create then
              let storage' := app.data.storage.create_user cu.new_user
              match storage'.get_user cu.new_user with
              | .error e => .err (.storageRun e)
              | .ok user =>
                  let app := { app with
                    data := { app.data with
                      storage := storage',
                      status_text := "Logged in as " ++ user.name,
                      current_user := some user },
                    mode := .logTable }
                  match app.data.update_table with
                  | .ok d => .ok (none, { app with data := d })
                  | .err e => .err e
                  | .panic => .panic
            else .ok (none, app)
        | .esc => .ok (none, app)
        | _ => .ok (some (.createUser cu), app)
      else .ok (some (.createUser cu), app)
  | .other => .ok (some (.createUser cu), app)

/-- `Vec::swap_remove(i)`: replace element `i` with the last element and pop;
`none` models the out-of-bounds panic. -/
def swapRemove (l : List TransactionFilter) (i : Nat) :
    Option (TransactionFilter × List TransactionFilter) :=
  match l.get? i, l.get? (l.length - 1) with
  | some x, some last => some (x, (l.set i last).dropLast)
  | _, _ => none

/-- `FilterResults::handle_event` (src/app/popups/filter_results.rs,
lines 124-164).  Both `'d'` and `'e'` clamp with an unguarded `len - 1`;
the panic on an empty list is again the `none`/`panic` case. -/
def FilterResults.handle_event (fr : FilterResults) (app : App) (event : Event) :
    Step (Option Popup × App) :=
  match event with
  | .key key =>
      if key.kind = .press then
        match key.code with
        | .up => .ok (some (.filterResults { fr with list_state := fr.list_state.selectPrevious }), app)
        | .down => .ok (some (.filterResults { fr with list_state := fr.list_state.selectNext }), app)
        | .esc =>
            .ok (none, { app with data := { app.data with transaction_filters := fr.filters } })
        | .char 'd' =>
            match fr.list_state.selected with
            | some index =>
                let i := min index (fr.filters.length - 1)
                if i < fr.filters.length then
                  .ok (some (.filterResults { fr with filters := fr.filters.eraseIdx i }), app)
                else .panic
            | none => .ok (some (.filterResults fr), app)
        | .char 'a' => .ok (some (.addFilter (AddFilter.new fr)), app)
        | .char 'e' =>
            match fr.list_state.selected with
            | some index =>
                let i := min index (fr.filters.length - 1)
                match swapRemove fr.filters i with
                | some (entry, rest) =>
                    .ok (some (.addFilter (AddFilter.newWithEntry { fr with filters := rest } entry)), app)
                | none => .panic
            | none => .ok (some (.filterResults fr), app)
        | _ => .ok (some (.filterResults fr), app)
      else .ok (some (.filterResults fr), app)
  | .other => .ok (some (.filterResults fr), app)

/-- `AddFilter::handle_event` (src/app/popups/filter_results.rs,
lines 196-242).  There is no Enter branch: Enter falls through to the
wildcard and the popup is returned unchanged; Esc returns the `pop_under`
`FilterResults` as-is — the filter being edited is NOT re-inserted. -/
def AddFilter.handle_event (af : AddFilter) (app : App) (event : Event) :
    Step (Option Popup × App) :=
  match event with
  | .key key =>
      if key.kind = .press then
        match key.code with
        | .up => .ok (some (.addFilter { af with selected_field := af.selected_field.prev }), app)
        | .down => .ok (some (.addFilter { af with selected_field := af.selected_field.next }), app)
        | .left =>
            match af.selected_field with
            | .type =>
                let st := af.selected_type.prev
                .ok (some (.addFilter { af with selected_type := st, filter := st.toFilter }), app)
            | .value =>
                .ok (some (.addFilter { af with
                  index := (((af.index : Int) - 1).emod (af.selected_type.value_count : Int)).toNat }), app)
            | .submit => .ok (some (.addFilter af), app)
        | .right =>
            match af.selected_field with
            | .type =>
                let st := af.selected_type.next
                .ok (some (.addFilter { af with selected_type := st, filter := st.toFilter }), app)
            | .value =>
                .ok (some (.addFilter { af with
                  index := (af.index + 1) % af.selected_type.value_count }), app)
            | .submit => .ok (some (.addFilter af), app)
        | .esc => .ok (some (.filterResults af.pop_under), app)
        | _ => .ok (some (.addFilter af), app)
      else .ok (some (.addFilter af), app)
  | .other => .ok (some (.addFilter af), app)

/-- `AddTransaction::handle_event` (src/app/popups/add_transaction.rs,
lines 57-142).  Submit `unwrap`s the current user (panic when absent). -/
def AddTransaction.handle_event (at_ : AddTransaction) (app : App) (event : Event) :
    Step (Option Popup × App) :=
  match event with
  | .key key =>
      if key.kind = .press then
        match key.code with
        | .up => .ok (some (.addTransaction { at_ with selected_field := at_.selected_field.prev }), app)
        | .down => .ok (some (.addTransaction { at_ with selected_field := at_.selected_field.next }), app)
        | .left =>
            match at_.selected_field with
            | .amount =>
                .ok (some (.addTransaction { at_ with
                  amount := at_.amount - value_from_modifiers key.modifiers }), app)
            | .message => .ok (some (.addTransaction { at_ with msg := at_.msg.right }), app)
            | .transactionType =>
                .ok (some (.addTransaction { at_ with trans_type := at_.trans_type.prev }), app)
            | .submit => .ok (some (.addTransaction at_), app)
        | .right =>
            match at_.selected_field with
            | .amount =>
                .ok (some (.addTransaction { at_ with
                  amount := at_.amount + value_from_modifiers key.modifiers }), app)
            | .message => .ok (some (.addTransaction { at_ with msg := at_.msg.left }), app)
            | .transactionType =>
                .ok (some (.addTransaction { at_ with trans_type := at_.trans_type.next }), app)
            | .submit => .ok (some (.addTransaction at_), app)
        | .enter =>
            match at_.selected_field with
            | .submit =>
                match app.data.current_user with
                | none => .panic
                | some u =>
                    let storage' := app.data.storage.add_transaction u.id at_.amount
                      at_.trans_type at_.msg.asString
                    let app := { app with data := { app.data with
                      storage := storage', status_text := "Added transaction" } }
                    match app.data.update_table with
                    | .ok d => .ok (none, { app with data := d })
                    | .err e => .err e
                    | .panic => .panic
            | f => .ok (some (.addTransaction { at_ with selected_field := f.next }), app)
        | .backspace =>
            match at_.selected_field with
            | .message => .ok (some (.addTransaction { at_ with msg := at_.msg.remove_behind }), app)
            | _ => .ok (some (.addTransaction at_), app)
        | .delete =>
            match at_.selected_field with
            | .message => .ok (some (.addTransaction { at_ with msg := at_.msg.remove_ahead }), app)
            | _ => .ok (some (.addTransaction at_), app)
        | .insert =>
            match at_.selected_field with
            | .message =>
                .ok (some (.addTransaction { at_ with
                  msg := { at_.msg with inserting := !at_.msg.inserting } }), app)
            | _ => .ok (some (.addTransaction at_), app)
        | .esc => .ok (none, app)
        | .char c =>
            match at_.selected_field with
            | .message => .ok (some (.addTransaction { at_ with msg := at_.msg.insert c }), app)
            | _ => .ok (some (.addTransaction at_), app)
        | _ => .ok (some (.addTransaction at_), app)
      else .ok (some (.addTransaction at_), app)
  | .other => .ok (some (.addTransaction at_), app)

/-- Modelled from the spec: the `Popup` capability dispatch — a uniform
forward to the active variant's handler (§4.3, §9: macro-generated trait
forwarding; the generated enum impl is not under `src/`). -/
def Popup.handle_event (p : Popup) (app : App) (event : Event) : Step (Option Popup × App) :=
  match p with
  | .addTransaction q => q.handle_event app event
  | .createUser q => q.process_event app event
  | .filterResults q => q.handle_event app event
  | .addFilter q => q.handle_event app event

/-- `App::handle_event` (src/app.rs, lines 194-222), parameterized by the two
mode handlers so that their irrelevance while a popup is active can be
stated; popups grab all key events. -/
def App.handleEventWith
    (tableH : AppData → KeyEvent → Step (AppData × Option AppMode))
    (loginH : AppData → CursoredString → KeyEvent → Step (AppData × CursoredString × Option AppMode))
    (app : App) (event : Event) : Step App :=
  match app.data.popup with
  | some popup =>
      (popup.handle_event { app with data := { app.data with popup := none } } event).map
        (fun r => { r.2 with data := { r.2.data with popup := r.1 } })
  | none =>
      match event with
      | .key key =>
          if key.kind = .press then
            match app.mode with
            | .intro _ =>
                if app.data.current_user.isSome then .ok { app with mode := .logTable }
                else .ok { app with mode := .userLogin default }
            | .userLogin username =>
                (loginH app.data username key).map (fun r =>
                  { app with data := r.1,
                             mode := match r.2.2 with
                                     | some m => m
                                     | none => .userLogin r.2.1 })
            | .logTable =>
                (tableH app.data key).map (fun r =>
                  { app with data := r.1,
                             mode := match r.2 with | some m => m | none => .logTable })
            | .quitting => .ok app
          else .ok app
      | .other => .ok app

/-- `App::handle_event` with the real mode handlers. -/
def App.handle_event (app : App) (event : Event) : Step App :=
  App.handleEventWith AppData.run_table AppData.run_user_login app event

/-- The popup branch of the dispatcher in isolation: take the popup out,
run its handler on the whole app, store the returned popup back. -/
def popupRoute (app : App) (p : Popup) (event : Event) : Step App :=
  (p.handle_event { app with data := { app.data with popup := none } } event).map
    (fun r => { r.2 with data := { r.2.data with popup := r.1 } })


/-- Evaluation helper: the mode of the app after a successful dispatcher
step (`none` on error or panic). -/
def stepModeOf : Step App → Option AppMode
  | .ok a => some a.mode
  | .err _ => none
  | .panic => none

/-! ### Concrete states used by counterexamples and witnesses -/

/-- A transaction of user 1. -/
def exampleRow : Transaction := ⟨10, 0, 1, 7, .Other, "snack"⟩

/-- Table-mode data: user 1 logged in, one cached transaction, no selection. -/
def exampleData : AppData :=
  { storage := ⟨[⟨1, "ann"⟩], [exampleRow], 2, 11, 5⟩,
    current_user := some ⟨1, "ann"⟩,
    transactions := [exampleRow],
    transaction_filters := [],
    table_state := ⟨none⟩,
    status_text := "",
    popup := none }

/-- Same data but with row 0 selected. -/
def exampleDataSel : AppData := { exampleData with table_state := ⟨some 0⟩ }

/-- A minimal app with empty storage and no popup. -/
def emptyApp : App := ⟨⟨⟨[], [], 1, 1, 0⟩, none, [], [], ⟨none⟩, "", none⟩, .logTable⟩

/-- Empty table-mode data with a (stale) row selection. -/
def emptyDataSel : AppData := ⟨⟨[], [], 1, 1, 0⟩, none, [], [], ⟨some 0⟩, "", none⟩

/-- A `FilterResults` popup holding one filter, with it selected. -/
def oneFilterFR : FilterResults := ⟨[.userId [5]], ⟨some 0⟩⟩

/-- An empty `FilterResults` popup with a (stale) selection. -/
def emptyFR : FilterResults := ⟨[], ⟨some 0⟩⟩

/-- The `AddFilter` state produced by pressing `e` on `oneFilterFR`: the
selected filter is moved out of the working set into the editor. -/
def editAF : AddFilter := ⟨⟨[], ⟨some 0⟩⟩, .userId [5], .type, .transactionType, 0⟩

/-- Login mode with an active `CreateUser` popup set to "Yes". -/
def createUserApp : App :=
  ⟨⟨⟨[], [], 1, 1, 0⟩, none, [], [], ⟨none⟩, "", some (.createUser ⟨"bob", true⟩)⟩,
   .userLogin default⟩

/-- Table mode with an active `CreateUser` popup set to "No". -/
def routedApp : App :=
  ⟨⟨⟨[], [], 1, 1, 0⟩, none, [], [], ⟨none⟩, "", some (.createUser ⟨"zoe", false⟩)⟩,
   .logTable⟩


/-! ## Lemma library for the UTF-8 and list helpers -/

theorem charLenUtf8_pos (c : Char) : 1 ≤ charLenUtf8 c := by
  unfold charLenUtf8
  by_cases h1 : c.toNat < 0x80
  · simp [h1]
  · by_cases h2 : c.toNat < 0x800
    · simp [h1, h2]
    · by_cases h3 : c.toNat < 0x10000
      · simp [h1, h2, h3]
      · simp [h1, h2, h3]

theorem utf8Encode_length (c : Char) : (utf8Encode c).length = charLenUtf8 c := by
  unfold utf8Encode charLenUtf8
  by_cases h1 : c.toNat < 0x80
  · simp [h1]
  · by_cases h2 : c.toNat < 0x800
    · simp [h1, h2]
    · by_cases h3 : c.toNat < 0x10000
      · simp [h1, h2, h3]
      · simp [h1, h2, h3]

theorem encodeList_append (l₁ l₂ : List Char) :
    encodeList (l₁ ++ l₂) = encodeList l₁ ++ encodeList l₂ := by
  induction l₁ with
  | nil => rfl
  | cons c rest ih => simp [encodeList, ih]

theorem length_encodeList (l : List Char) : (encodeList l).length = byteLenList l := by
  induction l with
  | nil => rfl
  | cons c rest ih => simp [encodeList, byteLenList, ih, utf8Encode_length]

theorem length_le_byteLenList (l : List Char) : l.length ≤ byteLenList l := by
  induction l with
  | nil => simp [byteLenList]
  | cons c rest ih =>
      simp only [List.length_cons, byteLenList]
      have := charLenUtf8_pos c
      omega

theorem byteLenList_append (l₁ l₂ : List Char) :
    byteLenList (l₁ ++ l₂) = byteLenList l₁ + byteLenList l₂ := by
  induction l₁ with
  | nil => simp [byteLenList]
  | cons c rest ih => simp [byteLenList, ih]; omega

theorem charOffsets_length (l : List Char) : (charOffsets l).length = l.length := by
  induction l with
  | nil => rfl
  | cons c rest ih => simp [charOffsets, ih]

theorem charOffsets_get? (l : List Char) (i : Nat) (h : i < l.length) :
    (charOffsets l).get? i = some (byteLenList (l.take i)) := by
  induction l generalizing i with
  | nil => simp at h
  | cons c rest ih =>
      cases i with
      | zero => simp [charOffsets, byteLenList]
      | succ j =>
          simp only [charOffsets, List.get?_cons_succ, List.get?_map]
          rw [ih j (by simpa using h)]
          simp [byteLenList]
          omega

/-! ## List helpers mirroring the Rust list manipulations -/


theorem eraseAt_nil (k : Nat) : eraseAt k [] = [] := by
  cases k <;> rfl

theorem retainNe_ge (skip : Nat) (l : List Char) :
    ∀ i, skip ≤ i → retainNe skip i l = l := by
  induction l with
  | nil => intro i _; rfl
  | cons c rest ih =>
      intro i hi
      have h : ¬ (i + 1 = skip) := by omega
      simp only [retainNe, if_neg h]
      rw [ih (i + 1) (by omega)]

theorem retainNe_eq_eraseAt (skip : Nat) (l : List Char) :
    ∀ i, i < skip → retainNe skip i l = eraseAt (skip - i - 1) l := by
  induction l with
  | nil => intro i _; simp [retainNe, eraseAt_nil]
  | cons c rest ih =>
      intro i hi
      by_cases h : i + 1 = skip
      · simp only [retainNe, if_pos h]
        rw [retainNe_ge skip rest (i + 1) (by omega)]
        have h0 : skip - i - 1 = 0 := by omega
        simp [h0, eraseAt]
      · simp only [retainNe, if_neg h]
        rw [ih (i + 1) (by omega)]
        have hk : skip - i - 1 = (skip - (i + 1) - 1) + 1 := by omega
        simp [hk, eraseAt]

theorem retainNe0_gt (skip : Nat) (l : List Char) :
    ∀ i, skip < i → retainNe0 skip i l = l := by
  induction l with
  | nil => intro i _; rfl
  | cons c rest ih =>
      intro i hi
      have h : ¬ (i = skip) := by omega
      simp only [retainNe0, if_neg h]
      rw [ih (i + 1) (by omega)]

theorem retainNe0_eq_eraseAt (skip : Nat) (l : List Char) :
    ∀ i, i ≤ skip → retainNe0 skip i l = eraseAt (skip - i) l := by
  induction l with
  | nil => intro i _; simp [retainNe0, eraseAt_nil]
  | cons c rest ih =>
      intro i hi
      by_cases h : i = skip
      · simp only [retainNe0, if_pos h]
        rw [retainNe0_gt skip rest (i + 1) (by omega)]
        have h0 : skip - i = 0 := by omega
        simp [h0, eraseAt]
      · simp only [retainNe0, if_neg h]
        rw [ih (i + 1) (by omega)]
        have hk : skip - i = (skip - (i + 1)) + 1 := by omega
        simp [hk, eraseAt]

theorem eraseAt_ge_length (k : Nat) (l : List Char) (h : l.length ≤ k) :
    eraseAt k l = l := by
  induction l generalizing k with
  | nil => exact eraseAt_nil k
  | cons c rest ih =>
      cases k with
      | zero => simp at h
      | succ j => simp [eraseAt, ih j (by simpa using h)]

theorem length_eraseAt (k : Nat) (l : List Char) (h : k < l.length) :
    (eraseAt k l).length = l.length - 1 := by
  induction l generalizing k with
  | nil => simp at h
  | cons c rest ih =>
      cases k with
      | zero => simp [eraseAt]
      | succ j =>
          have hj : j < rest.length := by simpa using h
          simp [eraseAt, ih j hj]
          omega

theorem byteLenList_eraseAt_lt (k : Nat) (l : List Char) (h : k < l.length) :
    byteLenList (eraseAt k l) < byteLenList l := by
  induction l generalizing k with
  | nil => simp at h
  | cons c rest ih =>
      cases k with
      | zero =>
          simp only [eraseAt, byteLenList]
          have := charLenUtf8_pos c
          omega
      | succ j =>
          have hj : j < rest.length := by simpa using h
          simp only [eraseAt, byteLenList]
          have := ih j hj
          omega

theorem eraseAt_insertAt (n : Nat) (c : Char) (l : List Char) (h : n ≤ l.length) :
    eraseAt n (insertAt n c l) = l := by
  induction l generalizing n with
  | nil =>
      cases n with
      | zero => rfl
      | succ j => simp at h
  | cons x xs ih =>
      cases n with
      | zero => rfl
      | succ j => simp [insertAt, eraseAt, ih j (by simpa using h)]

theorem length_insertAt (n : Nat) (c : Char) (l : List Char) :
    (insertAt n c l).length = l.length + 1 := by
  induction l generalizing n with
  | nil => cases n <;> rfl
  | cons x xs ih =>
      cases n with
      | zero => rfl
      | succ j => simp [insertAt, ih j]

theorem byteLenList_insertAt (n : Nat) (c : Char) (l : List Char) :
    byteLenList (insertAt n c l) = byteLenList l + charLenUtf8 c := by
  induction l generalizing n with
  | nil => cases n <;> simp [insertAt, byteLenList]
  | cons x xs ih =>
      cases n with
      | zero => simp [insertAt, byteLenList]; omega
      | succ j => simp [insertAt, byteLenList, ih j]; omega

theorem encodeList_insertAt (n : Nat) (c : Char) (l : List Char) (h : n ≤ l.length) :
    encodeList (insertAt n c l) =
      encodeList (l.take n) ++ utf8Encode c ++ encodeList (l.drop n) := by
  induction l generalizing n with
  | nil =>
      cases n with
      | zero => simp [insertAt, encodeList]
      | succ j => simp at h
  | cons x xs ih =>
      cases n with
      | zero => simp [insertAt, encodeList]
      | succ j =>
          simp only [insertAt, encodeList, List.take_succ_cons, List.drop_succ_cons]
          rw [ih j (by simpa using h)]
          simp [encodeList]

theorem encodeList_take (l : List Char) (k : Nat) :
    (encodeList l).take (byteLenList (l.take k)) = encodeList (l.take k) := by
  have h := List.take_append_drop k l
  calc (encodeList l).take (byteLenList (l.take k))
      = (encodeList (l.take k ++ l.drop k)).take (byteLenList (l.take k)) := by rw [h]
    _ = (encodeList (l.take k) ++ encodeList (l.drop k)).take
          ((encodeList (l.take k)).length) := by
          rw [encodeList_append, length_encodeList]
    _ = encodeList (l.take k) := List.take_left _ _

theorem encodeList_drop (l : List Char) (k : Nat) :
    (encodeList l).drop (byteLenList (l.take k)) = encodeList (l.drop k) := by
  have h := List.take_append_drop k l
  calc (encodeList l).drop (byteLenList (l.take k))
      = (encodeList (l.take k ++ l.drop k)).drop (byteLenList (l.take k)) := by rw [h]
    _ = (encodeList (l.take k) ++ encodeList (l.drop k)).drop
          ((encodeList (l.take k)).length) := by
          rw [encodeList_append, length_encodeList]
    _ = encodeList (l.drop k) := List.drop_left _ _

/-! ## Lemmas about `CursoredString` -/

namespace CursoredString

/-- The byte offset `insert` resolves is the byte length of the prefix of
`min index (chars count)` characters — i.e. a character boundary. -/
theorem byteOffsetOf_eq (s : CursoredString) :
    byteOffsetOf s = byteLenList (s.text.take (min s.index s.text.length)) := by
  unfold byteOffsetOf
  by_cases h : s.index < s.text.length
  · rw [charOffsets_get? s.text s.index h]
    simp [Nat.min_def, Nat.le_of_lt h, if_pos (Nat.le_of_lt h)]
  · have hge : s.text.length ≤ s.index := Nat.le_of_not_lt h
    have hnone : (charOffsets s.text).get? s.index = none := by
      apply List.get?_eq_none.mpr
      rw [charOffsets_length]; exact hge
    rw [hnone]
    have hmin : min s.index s.text.length = s.text.length := Nat.min_eq_right hge
    simp [hmin, List.take_length]

/-- Without overwrite mode and with a cursor inside the character range,
`remove_behind` exactly undoes `insert`. -/
theorem remove_behind_insert (s : CursoredString) (c : Char)
    (hIns : s.inserting = false) (hIdx : s.index ≤ s.text.length) :
    (s.insert c).remove_behind = s := by
  have hBase : insertBase s = s := by
    unfold insertBase; rw [hIns]; simp
  have hmin : min s.index s.text.length = s.index := Nat.min_eq_left hIdx
  have hins : s.insert c =
      ⟨insertAt s.index c s.text, s.index + 1, s.inserting⟩ := by
    simp [CursoredString.insert, hBase, hmin]
  rw [hins]
  unfold remove_behind
  have hretain : retainNe (s.index + 1) 0 (insertAt s.index c s.text) = s.text := by
    rw [retainNe_eq_eraseAt (s.index + 1) _ 0 (by omega)]
    have h1 : s.index + 1 - 0 - 1 = s.index := by omega
    rw [h1]
    exact eraseAt_insertAt s.index c s.text hIdx
  have hlt : byteLenList s.text < byteLenList (insertAt s.index c s.text) := by
    rw [byteLenList_insertAt]
    have := charLenUtf8_pos c
    omega
  simp only [gt_iff_lt, Nat.succ_pos, if_pos, hretain, hlt, Nat.add_sub_cancel]

/-- `insert` preserves validity of the state (cursor within the character
count, overwrite mode off). -/
theorem insert_preserves_valid (s : CursoredString) (c : Char)
    (hIns : s.inserting = false) (hIdx : s.index ≤ s.text.length) :
    (s.insert c).inserting = false ∧ (s.insert c).index ≤ (s.insert c).text.length := by
  have hBase : insertBase s = s := by
    unfold insertBase; rw [hIns]; simp
  unfold insert
  rw [hBase]
  refine ⟨hIns, ?_⟩
  simp only [length_insertAt]
  omega

end CursoredString

/-! ## Claims about `CursoredString` (C3, C6, C7) -/

/-- Claim C3: every `CursoredString` editing operation preserves
`0 ≤ cursor ≤ character_count(buffer)`, in particular moving right at the
end of the buffer never pushes the cursor past the character count.
The code violates this: `next` clamps `index.saturating_add(1)` to
`self.text.len()` — the BYTE length — while every other operation of the
struct is character-indexed.  Evaluating the code at the failing input
`CursoredString { text: "é", index: 1 }` (cursor already at the character
count): `move_right` yields cursor 2, strictly above the character count 1
(the byte length of `"é"`). -/
theorem c3_move_right_exceeds_char_count :
    (CursoredString.next ⟨['é'], 1, false⟩).index = 2
    ∧ (CursoredString.mk ['é'] 1 false).text.length = 1
    ∧ (CursoredString.mk ['é'] 1 false).text.length
        < (CursoredString.next ⟨['é'], 1, false⟩).index := by
  decide

/-- Claim C6: for every `CursoredString` state (any buffer, any cursor, both
insert and overwrite mode) and every character, `insert` resolves the
character index to a correct byte offset — the byte length of the prefix of
`min index (character count)` characters, hence a character boundary — and
the byte-level splice at that offset equals a character-level insertion, so
the resulting buffer is the UTF-8 encoding of a character sequence (valid
UTF-8) and no multi-byte sequence is ever split. -/
theorem c6_insert_utf8_safe (s : CursoredString) (c : Char) :
    CursoredString.byteOffsetOf (CursoredString.insertBase s)
      = byteLenList ((CursoredString.insertBase s).text.take
          (min (CursoredString.insertBase s).index (CursoredString.insertBase s).text.length))
    ∧ encodeList ((s.insert c).text)
        = (encodeList (CursoredString.insertBase s).text).take
            (CursoredString.byteOffsetOf (CursoredString.insertBase s))
          ++ utf8Encode c
          ++ (encodeList (CursoredString.insertBase s).text).drop
            (CursoredString.byteOffsetOf (CursoredString.insertBase s)) := by
  refine ⟨CursoredString.byteOffsetOf_eq _, ?_⟩
  have htext : (s.insert c).text =
      insertAt (min (CursoredString.insertBase s).index (CursoredString.insertBase s).text.length)
        c (CursoredString.insertBase s).text := rfl
  rw [htext, CursoredString.byteOffsetOf_eq (CursoredString.insertBase s)]
  rw [encodeList_insertAt _ _ _ (Nat.min_le_right _ _)]
  rw [encodeList_take, encodeList_drop]

/-- Claim C7 counterexample: the claim quantifies over every state,
including overwrite mode.  In overwrite mode `insert` first deletes the
character at the cursor, which `remove_before_cursor` cannot restore:
starting from `{ text: "a", index: 0, inserting: true }`, one `insert('b')`
followed by one `remove_behind` yields `{ text: "", index: 0 }`, not the
original buffer. -/
theorem c7_counterexample :
    CursoredString.remove_behind^[(['b'] : List Char).length]
      (CursoredString.insertList ⟨['a'], 0, true⟩ ['b']) ≠ ⟨['a'], 0, true⟩ := by
  decide

/-- Claim C7 (amended): for every state NOT in overwrite mode whose cursor is
within the character count, `n` `insert` calls followed by `n`
`remove_before_cursor` calls restore the original buffer and cursor. -/
theorem c7_insert_remove_roundtrip (s : CursoredString)
    (hIns : s.inserting = false) (hIdx : s.index ≤ s.text.length) :
    ∀ cs : List Char,
      CursoredString.remove_behind^[cs.length] (CursoredString.insertList s cs) = s := by
  intro cs
  induction cs generalizing s with
  | nil => rfl
  | cons c rest ih =>
      have hvalid := CursoredString.insert_preserves_valid s c hIns hIdx
      have hstep : CursoredString.insertList s (c :: rest)
          = CursoredString.insertList (s.insert c) rest := rfl
      rw [hstep, List.length_cons, Function.iterate_succ_apply']
      rw [ih (s.insert c) hvalid.1 hvalid.2]
      exact CursoredString.remove_behind_insert s c hIns hIdx

/-- Claim C7 witness: the round trip at the concrete state
`{ text: "x", index: 1 }` with the two-character sequence `"ab"`. -/
theorem c7_witness :
    (CursoredString.mk ['x'] 1 false).inserting = false
    ∧ (CursoredString.mk ['x'] 1 false).index ≤ (CursoredString.mk ['x'] 1 false).text.length
    ∧ CursoredString.remove_behind^[(['a', 'b'] : List Char).length]
        (CursoredString.insertList ⟨['x'], 1, false⟩ ['a', 'b']) = ⟨['x'], 1, false⟩ :=
  ⟨rfl, by decide, c7_insert_remove_roundtrip ⟨['x'], 1, false⟩ rfl (by decide) ['a', 'b']⟩

/-! ## `CursoredString` (src/app/popups.rs, lines 262-312)

```rust
pub struct CursoredString { pub text: String, pub index: usize, pub inserting: bool }
```
The buffer is modelled as its character list; `byteLenList` plays the role of
`self.text.len()` (the byte length) and `.length` the role of
`self.text.chars().count()`. -/

/-! ## Lemmas about the query compiler -/

theorem pushOrBinds_spec (frag : String) (vs : List SqlValue) : ∀ b : QueryBuilder,
    pushOrBinds frag b vs
      = ⟨b.sql ++ repeatFrag (frag ++ QueryBuilder.placeholder) vs.length, b.args ++ vs⟩ := by
  induction vs with
  | nil =>
      intro b
      simp [pushOrBinds, repeatFrag]
  | cons v rest ih =>
      intro b
      simp [pushOrBinds, ih, QueryBuilder.push, QueryBuilder.push_bind, repeatFrag,
        QueryBuilder.mk.injEq, String.append_assoc]

/-- Full behaviour of the `DateRange` branch of `add_to_builder`: each bound
compiles independently; `>=`/`<=` for inclusive, `>`/`<` for exclusive; an
unbounded START is omitted while an unbounded END emits the constant `1=1`;
the two fragments are joined by ` AND ` via the `Separated` wrapper; the
bound values go only into the argument list. -/
theorem dateRange_compile_spec (start stop : DateBound) (b : QueryBuilder) :
    addToBuilder (.dateRange ⟨start, stop⟩) b
      = some ⟨b.sql ++ dateRangeSql start.kind stop.kind,
              b.args ++ filterBinds (.dateRange ⟨start, stop⟩)⟩ := by
  cases start <;> cases stop <;>
    (simp [addToBuilder, dateRangeSql, filterBinds, DateBound.kind, SepState.push,
      SepState.push_bind_unseparated, QueryBuilder.push, QueryBuilder.push_bind,
      QueryBuilder.mk.injEq, String.append_assoc]
     <;> congr 1)

/-- Characterization of the compiler: the emitted SQL text is a function of
the filter's shape alone (appended to the incoming builder's text), and the
user-controlled values are appended, in order, to the bound-argument list —
never to the text.  `none` (the `ids[0]` panic on an empty id vector) is
likewise determined by the shape. -/
theorem addToBuilder_spec (f : TransactionFilter) : ∀ b : QueryBuilder,
    addToBuilder f b
      = (shapeSqlOpt f.shape).map (fun s => ⟨b.sql ++ s, b.args ++ filterBinds f⟩) := by
  induction f with
  | userId ids =>
      intro b
      cases ids with
      | nil => rfl
      | cons i rest =>
          simp only [addToBuilder, pushOrBinds_spec, QueryBuilder.push, QueryBuilder.push_bind,
            TransactionFilter.shape, List.length_cons, shapeSqlOpt, List.length_map,
            filterBinds, List.map_cons, Option.map_some']
          simp [QueryBuilder.mk.injEq, String.append_assoc]
  | type m =>
      intro b
      by_cases h : (m.kvPairs.filter (fun p => p.2)).map (fun p => p.1) = []
      · have hlen : (m.kvPairs.filter (fun p => p.2)).length = 0 := by
          simpa using congrArg List.length h
        simp only [addToBuilder, h, TransactionFilter.shape, hlen, shapeSqlOpt,
          filterBinds, Option.map_some']
        simp [h]
      · match hsel : (m.kvPairs.filter (fun p => p.2)).map (fun p => p.1) with
        | [] => exact absurd hsel h
        | t0 :: rest =>
            have hlen : (m.kvPairs.filter (fun p => p.2)).length = rest.length + 1 := by
              have := congrArg List.length hsel
              simpa using this
            simp only [addToBuilder, hsel, TransactionFilter.shape, hlen, shapeSqlOpt,
              filterBinds, pushOrBinds_spec, QueryBuilder.push, QueryBuilder.push_bind,
              Option.map_some', hsel, List.map_cons]
            simp [QueryBuilder.mk.injEq, String.append_assoc, List.length_map]
  | dateRange dr =>
      intro b
      match dr with
      | ⟨start, stop⟩ =>
          rw [dateRange_compile_spec]
          simp [TransactionFilter.shape, shapeSqlOpt, DateBound.kind]
  | id ids =>
      intro b
      cases ids with
      | nil => rfl
      | cons i rest =>
          simp only [addToBuilder, pushOrBinds_spec, QueryBuilder.push, QueryBuilder.push_bind,
            TransactionFilter.shape, List.length_cons, shapeSqlOpt, List.length_map,
            filterBinds, List.map_cons, Option.map_some']
          simp [QueryBuilder.mk.injEq, String.append_assoc]
  | not g ih =>
      intro b
      simp only [addToBuilder, ih, TransactionFilter.shape, shapeSqlOpt, filterBinds,
        QueryBuilder.push, Option.map_map]
      cases shapeSqlOpt g.shape with
      | none => rfl
      | some sg =>
          simp [QueryBuilder.push, String.append_assoc]

/-! ## Claims about the query compiler (C4, C5) -/

/-- Claim C4 counterexample: the claim says an unbounded bound is omitted,
contributing nothing to the emitted fragment, for BOTH the start and the end
bound.  Compiling `DateRange(Unbounded, Unbounded)` emits the non-empty text
`1=1`: the unbounded END bound is not omitted. -/
theorem c4_counterexample :
    addToBuilder (.dateRange ⟨.unbounded, .unbounded⟩) ⟨"", []⟩
      = some ⟨"1=1", []⟩
    ∧ ("1=1" : String) ≠ "" := by
  constructor
  · rfl
  · decide

/-- Claim C4 (amended): `DateRange` compiles each bound independently —
inclusive → `datetime >=`/`datetime <=`, exclusive → `datetime >`/
`datetime <`, with the bound value only in the argument list; an unbounded
START bound is omitted, but an unbounded END bound emits the constant
fragment `1=1` (with no bound value); bounded fragments are joined by
` AND `.  `dateRangeSql` codifies exactly this table. -/
theorem c4_date_bound_compilation (start stop : DateBound) (b : QueryBuilder) :
    addToBuilder (.dateRange ⟨start, stop⟩) b
      = some ⟨b.sql ++ dateRangeSql start.kind stop.kind,
              b.args ++ filterBinds (.dateRange ⟨start, stop⟩)⟩ :=
  dateRange_compile_spec start stop b

/-- Claim C5: for any two filter trees of identical shape (same variant at
every node, same number of set members, same kinds of date bounds), the
compiler emits character-for-character identical query text, and for every
filter the values are supplied only through the bound-argument list, appended
behind the incoming builder's arguments, while the emitted text is the
incoming text extended by a function of the shape alone. -/
theorem c5_parameterized_noninterference (f g : TransactionFilter) (b₁ b₂ : QueryBuilder)
    (hshape : f.shape = g.shape) (hsql : b₁.sql = b₂.sql) :
    (addToBuilder f b₁).map QueryBuilder.sql = (addToBuilder g b₂).map QueryBuilder.sql
    ∧ ∀ r : QueryBuilder, addToBuilder f b₁ = some r →
        r.sql = b₁.sql ++ ((shapeSqlOpt f.shape).getD "")
        ∧ r.args = b₁.args ++ filterBinds f := by
  constructor
  · rw [addToBuilder_spec f b₁, addToBuilder_spec g b₂, hshape, hsql]
    cases shapeSqlOpt g.shape <;> simp
  · intro r hr
    rw [addToBuilder_spec f b₁] at hr
    cases hopt : shapeSqlOpt f.shape with
    | none => rw [hopt] at hr; simp at hr
    | some s =>
        rw [hopt] at hr
        simp only [Option.map_some', Option.some.injEq] at hr
        rw [← hr]
        exact ⟨rfl, rfl⟩

/-- Claim C5 witness: `UserId([1, 2])` and `UserId([3, 4])` share the shape
`userId 2` and compile to the same text `user_id = ? OR user_id = ?`, with
the differing ids only in the argument lists. -/
theorem c5_witness :
    (TransactionFilter.userId [1, 2]).shape = (TransactionFilter.userId [3, 4]).shape
    ∧ (addToBuilder (.userId [1, 2]) ⟨"", []⟩).map QueryBuilder.sql
        = (addToBuilder (.userId [3, 4]) ⟨"", []⟩).map QueryBuilder.sql
    ∧ ∀ r : QueryBuilder, addToBuilder (.userId [1, 2]) ⟨"", []⟩ = some r →
        r.sql = "" ++ ((shapeSqlOpt (TransactionFilter.userId [1, 2]).shape).getD "")
        ∧ r.args = [] ++ filterBinds (.userId [1, 2]) := by
  refine ⟨by decide, ?_⟩
  exact c5_parameterized_noninterference (.userId [1, 2]) (.userId [3, 4]) ⟨"", []⟩ ⟨"", []⟩
    (by decide) rfl


/-! ## Claims about the application state machine and popups
(C1, C2, C8, C9, C10) -/

/-- Claim C1 counterexample: the claim says that in Table mode with a
current user, `c` deletes all of that user's transactions and refreshes the
cache.  At a concrete Table-mode state with user 1 logged in and one stored
transaction of user 1, `run_table` on `c` returns the state completely
unchanged: the row is still in storage, the cache is untouched, and no
storage call was performed. -/
theorem c1_counterexample :
    AppData.run_table exampleData ⟨.char 'c', noMods, .press⟩ = .ok (exampleData, none)
    ∧ exampleData.storage.rows.any (fun t => t.user_id = 1) = true
    ∧ exampleData.current_user = some ⟨1, "ann"⟩ := by
  decide

/-- Claim C1 (amended): the `c` key is unhandled in Table mode — it falls
through the wildcard arm of `run_table`: no remove-transactions call, no
cache refresh, no state change, mode kept. -/
theorem c1_clear_key_unhandled (d : AppData) (mods : KeyModifiers) (kind : KeyEventKind) :
    AppData.run_table d ⟨.char 'c', mods, kind⟩ = .ok (d, none) := rfl

/-- Claim C2 counterexample: `e` on a `FilterResults` holding `UserId([5])`
moves the filter out of the working set into the `AddFilter` editor; Esc in
the editor then returns a `FilterResults` whose working set is empty — the
filter is lost, not re-inserted. -/
theorem c2_counterexample :
    FilterResults.handle_event oneFilterFR emptyApp (.key ⟨.char 'e', noMods, .press⟩)
      = .ok (some (.addFilter editAF), emptyApp)
    ∧ AddFilter.handle_event editAF emptyApp (.key ⟨.esc, noMods, .press⟩)
      = .ok (some (.filterResults ⟨[], ⟨some 0⟩⟩), emptyApp)
    ∧ TransactionFilter.userId [5] ∉ (FilterResults.mk [] ⟨some 0⟩).filters := by
  decide

/-- Claim C2 (amended): Esc in `AddFilter` returns control to the
`FilterResults` popup with its working set exactly as it was when the editor
opened (`pop_under` unchanged); the filter being edited is discarded, so a
filter opened for editing via `e` (which removed it from the working set) is
lost on cancel. -/
theorem c2_escape_returns_popunder (af : AddFilter) (app : App) (mods : KeyModifiers) :
    AddFilter.handle_event af app (.key ⟨.esc, mods, .press⟩)
      = .ok (some (.filterResults af.pop_under), app) := rfl

/-- Claim C8 counterexample: the claim's second half says the AppState mode
is frozen while a popup is active.  With a `CreateUser` popup active over
Login mode, Enter on "Yes" makes the popup handler itself set the mode to
`LogTable`: the mode changes while the popup is active. -/
theorem c8_counterexample :
    stepModeOf (App.handle_event createUserApp (.key ⟨.enter, noMods, .press⟩))
      = some .logTable
    ∧ createUserApp.mode = .userLogin default
    ∧ AppMode.logTable ≠ AppMode.userLogin default := by
  decide

/-- Claim C8 (amended): whenever a popup is active, the dispatcher hands the
event to the popup's handler and the mode handlers are never invoked — the
dispatch result does not depend on them at all — but the mode is not frozen:
a popup handler may itself change it (see the counterexample). -/
theorem c8_popup_exclusive_routing (app : App) (p : Popup) (ev : Event)
    (h : app.data.popup = some p) :
    (∀ tableH tableH' loginH loginH',
        App.handleEventWith tableH loginH app ev
          = App.handleEventWith tableH' loginH' app ev)
    ∧ App.handle_event app ev = popupRoute app p ev := by
  constructor
  · intro tableH tableH' loginH loginH'
    simp only [App.handleEventWith, h]
  · simp only [App.handle_event, App.handleEventWith, popupRoute, h]

/-- Claim C8 witness: the routing theorem applied at a concrete app with an
active popup, for two arbitrary pairs of mode handlers. -/
theorem c8_witness :
    App.handleEventWith (fun d _ => .ok (d, none)) (fun d u _ => .ok (d, u, none))
        routedApp .other
      = App.handleEventWith (fun _ _ => .panic) (fun _ _ _ => .panic) routedApp .other
    ∧ App.handle_event routedApp .other
        = popupRoute routedApp (.createUser ⟨"zoe", false⟩) .other := by
  have h := c8_popup_exclusive_routing routedApp (.createUser ⟨"zoe", false⟩) .other rfl
  exact ⟨h.1 _ _ _ _, h.2⟩

/-- Claim C9: the `d` handlers are total only on non-empty lists.  In Table
mode with a selection and an empty transaction cache, `run_table` panics
(the unguarded `len - 1` / indexing); same for `FilterResults` with a
selection and an empty filter list.  When the list is non-empty, the clamp
`min sel (len - 1)` is well-defined and the selected entry is deleted: in
Table mode no row with the clamped entry's id survives in storage and the
cache is refreshed from storage; in `FilterResults` the clamped entry is
removed from the working set. -/
theorem c9_delete_totality (d : AppData) (sel : Nat) (mods : KeyModifiers)
    (fr : FilterResults) (app : App) :
    (d.table_state.selected = some sel → d.transactions = [] →
        AppData.run_table d ⟨.char 'd', mods, .press⟩ = .panic)
    ∧ (∀ u t, d.table_state.selected = some sel → d.current_user = some u →
        d.transactions.get? (min sel (d.transactions.length - 1)) = some t →
        ∃ d', AppData.run_table d ⟨.char 'd', mods, .press⟩ = .ok (d', none)
          ∧ (∀ t' ∈ d'.storage.rows, t'.trans_id ≠ t.trans_id)
          ∧ d'.transactions = d'.storage.get_transactions
              (.userId [u.id] :: d.transaction_filters))
    ∧ (fr.list_state.selected = some sel → fr.filters = [] →
        FilterResults.handle_event fr app (.key ⟨.char 'd', mods, .press⟩) = .panic)
    ∧ (fr.list_state.selected = some sel → fr.filters ≠ [] →
        FilterResults.handle_event fr app (.key ⟨.char 'd', mods, .press⟩)
          = .ok (some (.filterResults
              ⟨fr.filters.eraseIdx (min sel (fr.filters.length - 1)), fr.list_state⟩), app)) := by
  refine ⟨?_, ?_, ?_, ?_⟩
  · intro h1 h2
    simp [AppData.run_table, h1, h2]
  · intro u t h1 h2 h3
    simp only [AppData.run_table, h1, h3, AppData.update_table, h2]
    refine ⟨_, rfl, ?_, ?_⟩
    · intro t' ht'
      simp only [Storage.remove_transactions, List.mem_filter] at ht'
      have hmatch := ht'.2
      simp [matchesFilter, List.contains] at hmatch
      exact fun hc => hmatch (by rw [hc])
    · rfl
  · intro h1 h2
    simp [FilterResults.handle_event, h1, h2]
  · intro h1 h2
    have hlen : 0 < fr.filters.length := List.length_pos.mpr h2
    have hi : min sel (fr.filters.length - 1) < fr.filters.length := by omega
    simp [FilterResults.handle_event, h1, hi]

/-- Claim C9 witness: the four conjuncts at concrete states — an empty cache
with a selection panics; a one-row cache with user 1 logged in deletes row
10 and refreshes; an empty filter list with a selection panics; a one-filter
list drops the clamped entry. -/
theorem c9_witness :
    AppData.run_table emptyDataSel ⟨.char 'd', noMods, .press⟩ = .panic
    ∧ (∃ d', AppData.run_table exampleDataSel ⟨.char 'd', noMods, .press⟩ = .ok (d', none)
        ∧ (∀ t' ∈ d'.storage.rows, t'.trans_id ≠ exampleRow.trans_id)
        ∧ d'.transactions = d'.storage.get_transactions
            (.userId [(User.mk 1 "ann").id] :: exampleDataSel.transaction_filters))
    ∧ FilterResults.handle_event emptyFR emptyApp (.key ⟨.char 'd', noMods, .press⟩) = .panic
    ∧ FilterResults.handle_event oneFilterFR emptyApp (.key ⟨.char 'd', noMods, .press⟩)
        = .ok (some (.filterResults
            ⟨oneFilterFR.filters.eraseIdx (min 0 (oneFilterFR.filters.length - 1)),
             oneFilterFR.list_state⟩), emptyApp) := by
  refine ⟨?_, ?_, ?_, ?_⟩
  · exact (c9_delete_totality emptyDataSel 0 noMods emptyFR emptyApp).1 rfl rfl
  · exact (c9_delete_totality exampleDataSel 0 noMods emptyFR emptyApp).2.1
      ⟨1, "ann"⟩ exampleRow rfl rfl (by decide)
  · exact (c9_delete_totality emptyDataSel 0 noMods emptyFR emptyApp).2.2.1 rfl rfl
  · exact (c9_delete_totality emptyDataSel 0 noMods oneFilterFR emptyApp).2.2.2 rfl (by decide)

/-- Claim C10: Enter in `AddFilter` (on any selected field, Submit included)
returns the same popup with every field unchanged; and no execution of
`AddFilter`'s handler ever touches the `FilterResults` working set beneath
it — every outcome is either the editor with `pop_under` unchanged, or (on
Esc) exactly the untouched `pop_under` itself.  Hence the working set can
never gain a filter through `AddFilter`. -/
theorem c10_addfilter_never_inserts (af : AddFilter) (app : App) (mods : KeyModifiers) :
    AddFilter.handle_event af app (.key ⟨.enter, mods, .press⟩)
      = .ok (some (.addFilter af), app)
    ∧ ∀ ev : Event,
        (∃ af', AddFilter.handle_event af app ev = .ok (some (.addFilter af'), app)
            ∧ af'.pop_under = af.pop_under)
        ∨ AddFilter.handle_event af app ev = .ok (some (.filterResults af.pop_under), app) := by
  rcases af with ⟨pu, fil, sf, st, idx⟩
  refine ⟨rfl, ?_⟩
  intro ev
  rcases ev with ⟨⟨code, m, kind⟩⟩ | _
  · cases kind with
    | press =>
        cases code <;>
          first
            | exact Or.inl ⟨_, rfl, rfl⟩
            | exact Or.inr rfl
            | (cases sf <;> exact Or.inl ⟨_, rfl, rfl⟩)
    | release => exact Or.inl ⟨_, rfl, rfl⟩
    | repeated => exact Or.inl ⟨_, rfl, rfl⟩
  · exact Or.inl ⟨_, rfl, rfl⟩


end Mantra
